import Mathlib

/-!
Verification of the content-enrichment and caching engine of the Movie_world
repository.  The JavaScript sources (`src/utils/apiHelpers.js`,
`src/services/tmdbApi.js`, `src/services/omdbApi.js`, `src/services/api.js`)
are shallowly embedded below: JS `Map` objects become insertion-ordered
association lists, `Date.now()` becomes an explicit `now : Nat` argument,
promises that settle with a value or rejection become `Except` values, and
`async` orchestration that is deterministic up to timing becomes a pure
function of the per-item outcomes.
-/

namespace MovieWorld

/-! ### JS `Map` semantics (insertion-ordered association list)

A JS `Map` iterates in insertion order; `set` of an existing key updates the
value in place (keeping the position of the key), `set` of a fresh key appends,
`delete` removes the unique entry for the key, and `keys().next().value` is
the first (earliest-inserted) key. -/

def lookupKey {α : Type} (k : String) : List (String × α) → Option α
  | [] => none
  | (k2, v) :: rest => if k2 = k then some v else lookupKey k rest

def mapSet {α : Type} (k : String) (v : α) : List (String × α) → List (String × α)
  | [] => [(k, v)]
  | (k2, v2) :: rest => if k2 = k then (k, v) :: rest else (k2, v2) :: mapSet k v rest

def eraseKey {α : Type} (k : String) : List (String × α) → List (String × α)
  | [] => []
  | (k2, v2) :: rest => if k2 = k then rest else (k2, v2) :: eraseKey k rest

/-! ### `ApiCache` (src/movie-world/src/utils/apiHelpers.js, lines 154-193) -/

/-- The object stored per key by `ApiCache.set`: `{ data, expiry: Date.now() + this.ttl }`. -/
structure CacheEntry (α : Type) where
  data : α
  expiry : Nat
deriving DecidableEq, Repr

/-- `class ApiCache { constructor(maxSize = 100, ttl = 5*60*1000) ... }`.
`cache` is the backing `Map` in insertion order. -/
structure ApiCache (α : Type) where
  cache : List (String × CacheEntry α)
  maxSize : Nat
  ttl : Nat
deriving DecidableEq, Repr

/-- Fresh cache as built by the constructor. -/
def ApiCache.mkCache (α : Type) (maxSize : Nat := 100) (ttl : Nat := 5 * 60 * 1000) :
    ApiCache α :=
  { cache := [], maxSize := maxSize, ttl := ttl }

/-- `get(key)`: miss on absent key; an entry with `Date.now() > item.expiry` is
deleted and reported as a miss; otherwise the stored data is returned and the
store is untouched.  The returned pair is (result, store after the call). -/
def ApiCache.get {α : Type} (c : ApiCache α) (key : String) (now : Nat) :
    Option α × ApiCache α :=
  match lookupKey key c.cache with
  | none => (none, c)
  | some item =>
    if item.expiry < now then (none, { c with cache := eraseKey key c.cache })
    else (some item.data, c)

/-- `set(key, data)`: if `this.cache.size >= this.maxSize`, the first key in
iteration order (`this.cache.keys().next().value`) is deleted; on an empty map
that key is `undefined` and the delete is a no-op.  Then the new entry is
stored with expiry `Date.now() + this.ttl`. -/
def ApiCache.set {α : Type} (c : ApiCache α) (key : String) (data : α) (now : Nat) :
    ApiCache α :=
  let store :=
    if c.maxSize ≤ c.cache.length then
      match c.cache with
      | [] => c.cache
      | (k0, _) :: _ => eraseKey k0 c.cache
    else c.cache
  { c with cache := mapSet key { data := data, expiry := now + c.ttl } store }

/-- `clear()`. -/
def ApiCache.clear {α : Type} (c : ApiCache α) : ApiCache α :=
  { c with cache := [] }

/-- `size()`. -/
def ApiCache.size {α : Type} (c : ApiCache α) : Nat :=
  c.cache.length

/-- One observable operation on an `ApiCache`, with the wall-clock time at
which it runs. -/
inductive CacheOp (α : Type) where
  | get (key : String) (now : Nat)
  | set (key : String) (data : α) (now : Nat)
  | clear
deriving Repr

def applyOp {α : Type} (c : ApiCache α) : CacheOp α → ApiCache α
  | .get k now => (c.get k now).2
  | .set k d now => c.set k d now
  | .clear => c.clear

def applyOps {α : Type} (c : ApiCache α) (ops : List (CacheOp α)) : ApiCache α :=
  ops.foldl applyOp c

/-! ### `retryApiCall` (src/movie-world/src/utils/apiHelpers.js, lines 140-151) -/

/-- The error categories distinguished by `handleApiError` (401 auth, 429 rate
limit, request-level network failure, anything else). -/
inductive JsError where
  | auth
  | rateLimit
  | network
  | generic (message : String)
deriving DecidableEq, Repr

/-- The loop of `retryApiCall` at loop index `i`, with `remaining` loop
iterations still allowed (`remaining` stands for `maxRetries - i`, so the JS
guard `i < maxRetries` is `remaining > 0` and the last-attempt test
`i === maxRetries - 1` is `remaining == 1`).  `apiCall j` is the settled
outcome of the (j+1)-st attempt of the underlying call.  Returns (result,
number of attempts issued, delays awaited between attempts); the result is
`none` when the loop falls through, which happens only for `maxRetries = 0`,
where the JS function returns `undefined` without calling `apiCall`. -/
def retryLoop {α : Type} (apiCall : Nat → Except JsError α) (delay : Nat) :
    Nat → Nat → Option (Except JsError α) × Nat × List Nat
  | _, 0 => (none, 0, [])
  | i, remaining + 1 =>
    match apiCall i with
    | .ok v => (some (.ok v), 1, [])
    | .error e =>
      if remaining = 0 then (some (.error e), 1, [])
      else
        let rest := retryLoop apiCall delay (i + 1) remaining
        (rest.1, rest.2.1 + 1, delay * (i + 1) :: rest.2.2)

/-- `retryApiCall(apiCall, maxRetries = 3, delay = 1000)`: attempt the call up
to `maxRetries` times; on failure at attempt `i` (0-based), re-throw if it was
the last allowed attempt, otherwise wait `delay * (i + 1)` ms and try again. -/
def retryApiCall {α : Type} (apiCall : Nat → Except JsError α)
    (maxRetries : Nat := 3) (delay : Nat := 1000) :
    Option (Except JsError α) × Nat × List Nat :=
  retryLoop apiCall delay 0 maxRetries

/-! ### Pagination (src/movie-world/src/utils/apiHelpers.js, `generatePageNumbers`) -/

/-- `for (let i = a; i <= b; i++) pages.push(i)`. -/
def intRange (a b : Int) : List Int :=
  (List.range (b + 1 - a).toNat).map (fun k => a + Int.ofNat k)

/-- `generatePageNumbers(currentPage, totalPages, maxVisible = 5)`.
`Math.floor` division is `Int.fdiv`. -/
def generatePageNumbers (currentPage totalPages : Int) (maxVisible : Int := 5) :
    List Int :=
  let half := Int.fdiv maxVisible 2
  let start0 := max 1 (currentPage - half)
  let end0 := min totalPages (start0 + maxVisible - 1)
  let start1 :=
    if end0 - start0 + 1 < maxVisible then max 1 (end0 - maxVisible + 1) else start0
  intRange start1 end0

/-! ### Genre registry (src/services/api.js, `ApiService.getGenres`) -/

/-- A TMDB genre object `{ id, name }`. -/
structure Genre where
  id : Int
  name : String
deriving DecidableEq, Repr

/-- One step of the `reduce` inside `getGenres`:
`if (!acc.find(g => g.id === genre.id)) acc.push(genre); return acc;`. -/
def dedupStep (acc : List Genre) (genre : Genre) : List Genre :=
  if acc.any (fun g => g.id = genre.id) then acc else acc ++ [genre]

/-- The dedup of `getGenres`: `allGenres.reduce(..., [])`. -/
def dedupById (allGenres : List Genre) : List Genre :=
  allGenres.foldl dedupStep []

/-- The `ApiService` state visible to `getGenres`: `this.genreCache` is a
`Map` used with the single key `all`, so it is an `Option`. -/
structure ApiService where
  genreCache : Option (List Genre)
deriving DecidableEq, Repr

/-- `getGenres()`: return the cached list when present; otherwise fetch the
movie-genre and TV-genre taxonomies (passed here as the already-resolved
`movieGenres` / `tvGenres`), concatenate, deduplicate by id keeping the first
occurrence, cache and return.  The `Bool` records whether the upstream
taxonomy fetches were performed by this call. -/
def getGenres (movieGenres tvGenres : List Genre) (s : ApiService) :
    List Genre × ApiService × Bool :=
  match s.genreCache with
  | some cached => (cached, s, false)
  | none =>
    let allGenres := movieGenres ++ tvGenres
    let uniqueGenres := dedupById allGenres
    (uniqueGenres, { genreCache := some uniqueGenres }, true)

/-! ### Canonical records (src/services/tmdbApi.js transforms) -/

/-- JS `a || b` where `a` is a string (the empty string is the only falsy
string value). -/
def jsOrStr (a b : String) : String :=
  if a = "" then b else a

/-- JS `a || b` where `a` is a nullable number (both `null` and `0` are
falsy). -/
def jsOrRat (a : Option Rat) (b : Rat) : Rat :=
  match a with
  | some v => if v = 0 then b else v
  | none => b

/-- JS `a || b` where both sides are nullable strings. -/
def jsOrOptStr (a b : Option String) : Option String :=
  match a with
  | some v => if v = "" then b else some v
  | none => b

/-- A canonical list-page record, as produced by `transformTrendingData`,
`transformMovieData`, `transformTVData` and `transformSearchData`.  `year` is
`new Date(...).getFullYear() || N/A`, modelled as `none` for the `N/A`
case; `mediaType` is the JS `type` field.  These list records carry no
`cast`, `director` or `runtime` fields (those exist only on detail records). -/
structure TMDBItem where
  id : Int
  tmdbId : Int
  title : String
  mediaType : String
  year : Option Int
  genre : List Int
  plot : String
  rating : Rat
  tmdb : Rat
  poster : Option String
  backdrop : Option String
  releaseDate : String
  popularity : Rat
  voteCount : Int
  originalLanguage : String
deriving DecidableEq, Repr

/-- A detailed record, as produced by `transformMovieDetails` /
`transformTVDetails`.  Fields present on only one of the two shapes (movie
vs. TV) are `Option`s, `none` standing for the JS `undefined` of the other
shape.  The `similar` list carries canonical list records. -/
structure TMDBDetails where
  id : Int
  tmdbId : Int
  imdbId : Option String
  title : String
  mediaType : String
  year : Option Int
  genre : List String
  plot : String
  rating : Rat
  tmdb : Rat
  poster : Option String
  backdrop : Option String
  releaseDate : String
  runtime : Option Int
  budget : Option Int
  revenue : Option Int
  numberOfSeasons : Option Int
  numberOfEpisodes : Option Int
  episodeRunTime : Option Int
  cast : List String
  director : Option String
  creator : Option String
  popularity : Rat
  voteCount : Int
  originalLanguage : String
  productionCompanies : Option (List String)
  networks : Option (List String)
  similar : List TMDBItem
deriving DecidableEq, Repr

/-! ### Enrichment records (src/services/omdbApi.js, `transformOMDBData`) -/

/-- The named entries of the `ratingMap` built by `transformRatings`; sources
other than the three named ones land under ad-hoc keys that nothing in the
merge engine reads, so they are not modelled. -/
structure OMDBRatings where
  imdb : Option Rat
  rottenTomatoes : Option Int
  metacritic : Option Int
deriving DecidableEq, Repr

/-- The record produced by `transformOMDBData`.  String fields that OMDB
reports for every match (`Title`, `Plot`, `Director`, ...) are `String`
(OMDB uses the literal text `N/A` for unknown values); fields absent for one
content kind or nulled by the transform are `Option`s. -/
structure OMDBItem where
  imdbId : String
  title : String
  year : String
  rated : String
  released : String
  runtime : String
  genre : List String
  director : String
  writer : String
  actors : List String
  plot : String
  language : String
  country : String
  awards : String
  poster : Option String
  ratings : OMDBRatings
  metascore : Option Rat
  imdbRating : Option Rat
  imdbVotes : Option String
  omdbType : String
  dvd : Option String
  boxOffice : Option String
  production : Option String
  website : Option String
  totalSeasons : Option String
deriving DecidableEq, Repr

/-! ### Merge engine (src/services/api.js, `mergeBasicData` / `mergeDetailedData`) -/

/-- The object returned by `mergeBasicData`: a spread of the TMDB list record
with the OMDB-derived fields added or overridden.  `director` and `runtime`
are `Option`s because `omdbItem.director || tmdbItem.director` (and likewise
`runtime`) falls back to the `undefined` of the list record when the OMDB string is
empty. -/
structure MergedBasic where
  id : Int
  tmdbId : Int
  title : String
  mediaType : String
  year : Option Int
  genre : List Int
  rating : Rat
  tmdb : Rat
  poster : Option String
  backdrop : Option String
  releaseDate : String
  popularity : Rat
  voteCount : Int
  originalLanguage : String
  imdb : Rat
  rottenTomatoes : Option Int
  metacritic : Option Int
  imdbId : String
  rated : String
  awards : String
  plot : String
  cast : List String
  director : Option String
  writer : String
  boxOffice : Option String
  runtime : Option String
deriving DecidableEq, Repr

/-- `mergeBasicData(tmdbItem, omdbItem)`.  The `cast` rule
`tmdbItem.cast && tmdbItem.cast.length > 0 ? tmdbItem.cast : omdbItem.actors || []`
always takes the OMDB branch because list records carry no `cast` field, and
`transformOMDBData` always produces an array (arrays are truthy). -/
def mergeBasicData (tmdbItem : TMDBItem) (omdbItem : OMDBItem) : MergedBasic :=
  { id := tmdbItem.id
    tmdbId := tmdbItem.tmdbId
    title := tmdbItem.title
    mediaType := tmdbItem.mediaType
    year := tmdbItem.year
    genre := tmdbItem.genre
    rating := tmdbItem.rating
    tmdb := tmdbItem.tmdb
    poster := tmdbItem.poster
    backdrop := tmdbItem.backdrop
    releaseDate := tmdbItem.releaseDate
    popularity := tmdbItem.popularity
    voteCount := tmdbItem.voteCount
    originalLanguage := tmdbItem.originalLanguage
    imdb := jsOrRat omdbItem.imdbRating tmdbItem.rating
    rottenTomatoes := omdbItem.ratings.rottenTomatoes
    metacritic := omdbItem.ratings.metacritic
    imdbId := omdbItem.imdbId
    rated := omdbItem.rated
    awards := omdbItem.awards
    plot :=
      if omdbItem.plot ≠ "" ∧ tmdbItem.plot.length < omdbItem.plot.length then
        omdbItem.plot
      else tmdbItem.plot
    cast := omdbItem.actors
    director := if omdbItem.director = "" then none else some omdbItem.director
    writer := omdbItem.writer
    boxOffice := omdbItem.boxOffice
    runtime := if omdbItem.runtime = "" then none else some omdbItem.runtime }

/-- The object returned by `mergeDetailedData`: a spread of the detail record
with the OMDB-derived fields added or overridden.  `runtime` and
`totalSeasons` mix an OMDB string with a TMDB number, hence the sum types. -/
structure MergedDetailed where
  id : Int
  tmdbId : Int
  title : String
  mediaType : String
  year : Option Int
  genre : List String
  rating : Rat
  tmdb : Rat
  poster : Option String
  backdrop : Option String
  releaseDate : String
  budget : Option Int
  revenue : Option Int
  numberOfSeasons : Option Int
  numberOfEpisodes : Option Int
  episodeRunTime : Option Int
  creator : Option String
  popularity : Rat
  voteCount : Int
  originalLanguage : String
  productionCompanies : Option (List String)
  networks : Option (List String)
  similar : List TMDBItem
  imdb : Rat
  rottenTomatoes : Option Int
  metacritic : Option Int
  metascore : Option Rat
  imdbVotes : Option String
  imdbId : String
  rated : String
  awards : String
  language : String
  country : String
  plot : String
  cast : List String
  director : Option String
  writer : String
  boxOffice : Option String
  runtime : Option (String ⊕ Int)
  dvd : Option String
  website : Option String
  production : Option String
  totalSeasons : Option (String ⊕ Int)
deriving DecidableEq, Repr

/-- `mergeDetailedData(tmdbItem, omdbItem)`. -/
def mergeDetailedData (tmdbItem : TMDBDetails) (omdbItem : OMDBItem) : MergedDetailed :=
  { id := tmdbItem.id
    tmdbId := tmdbItem.tmdbId
    title := tmdbItem.title
    mediaType := tmdbItem.mediaType
    year := tmdbItem.year
    genre := tmdbItem.genre
    rating := tmdbItem.rating
    tmdb := tmdbItem.tmdb
    poster := tmdbItem.poster
    backdrop := tmdbItem.backdrop
    releaseDate := tmdbItem.releaseDate
    budget := tmdbItem.budget
    revenue := tmdbItem.revenue
    numberOfSeasons := tmdbItem.numberOfSeasons
    numberOfEpisodes := tmdbItem.numberOfEpisodes
    episodeRunTime := tmdbItem.episodeRunTime
    creator := tmdbItem.creator
    popularity := tmdbItem.popularity
    voteCount := tmdbItem.voteCount
    originalLanguage := tmdbItem.originalLanguage
    productionCompanies := tmdbItem.productionCompanies
    networks := tmdbItem.networks
    similar := tmdbItem.similar
    imdb := jsOrRat omdbItem.imdbRating tmdbItem.rating
    rottenTomatoes := omdbItem.ratings.rottenTomatoes
    metacritic := omdbItem.ratings.metacritic
    metascore := omdbItem.metascore
    imdbVotes := omdbItem.imdbVotes
    imdbId := omdbItem.imdbId
    rated := omdbItem.rated
    awards := omdbItem.awards
    language := omdbItem.language
    country := omdbItem.country
    plot :=
      if omdbItem.plot ≠ "" ∧ tmdbItem.plot.length < omdbItem.plot.length then
        omdbItem.plot
      else tmdbItem.plot
    cast :=
      if tmdbItem.cast.length > 0 then tmdbItem.cast else omdbItem.actors
    director :=
      if omdbItem.director = "" then tmdbItem.director else some omdbItem.director
    writer := omdbItem.writer
    boxOffice := omdbItem.boxOffice
    runtime :=
      if omdbItem.runtime = "" then tmdbItem.runtime.map Sum.inr
      else some (Sum.inl omdbItem.runtime)
    dvd := omdbItem.dvd
    website := omdbItem.website
    production :=
      jsOrOptStr omdbItem.production
        (tmdbItem.productionCompanies.map (fun l => String.intercalate ", " l))
    totalSeasons :=
      match omdbItem.totalSeasons with
      | some s => if s = "" then tmdbItem.numberOfSeasons.map Sum.inr else some (Sum.inl s)
      | none => tmdbItem.numberOfSeasons.map Sum.inr }

/-! ### Batched enrichment engine (src/services/api.js, `enhanceWithOMDBData`) -/

/-- An element of the list returned by `enhanceWithOMDBData`: either the
unmodified TMDB record (lookup failed or found nothing) or a merged record. -/
inductive EnhancedItem where
  | plain (item : TMDBItem)
  | merged (m : MergedBasic)
deriving DecidableEq, Repr

/-- The `id` field of an enhanced item (`mergeBasicData` spreads the TMDB
record, so a merged record keeps its primary `id`). -/
def EnhancedItem.id : EnhancedItem → Int
  | .plain item => item.id
  | .merged m => m.id

/-- The per-item closure inside `enhanceWithOMDBData`: await
`omdb.searchByTitle(item.title, item.year, getOMDBType(item.type))`; a
rejection is caught and the item returned unchanged, a `null` result (OMDB
`Response: False`, or an error swallowed inside `searchByTitle` itself)
leaves the item unchanged, and a found record is merged via `mergeBasicData`.
The settled outcome of the lookup promise for an item is abstracted as
`lookup item`. -/
def enhanceOne (lookup : TMDBItem → Except JsError (Option OMDBItem))
    (item : TMDBItem) : EnhancedItem :=
  match lookup item with
  | .error _ => .plain item
  | .ok none => .plain item
  | .ok (some omdbData) => .merged (mergeBasicData item omdbData)

/-- The batching loop `for (let i = 0; i < tmdbItems.length; i += maxConcurrent)`:
each iteration maps `step` over the next `maxConcurrent` items and appends the
`Promise.all` results — which are indexed by position in the batch, not by
completion order — to the accumulator.  `fuel` bounds the number of
iterations; with `maxConcurrent = 0` the JS index `i` never advances and the
loop never terminates, which this model renders as `none` once the fuel is
exhausted (`fuel = items.length` is enough for every `maxConcurrent ≥ 1`). -/
def enhanceBatches (step : TMDBItem → EnhancedItem) (maxConcurrent : Nat) :
    Nat → List TMDBItem → Option (List EnhancedItem)
  | _, [] => some []
  | 0, _ :: _ => none
  | fuel + 1, item :: rest =>
    match enhanceBatches step maxConcurrent fuel ((item :: rest).drop maxConcurrent) with
    | none => none
    | some tailResult => some (((item :: rest).take maxConcurrent).map step ++ tailResult)

/-- `enhanceWithOMDBData(tmdbItems, maxConcurrent = 5)`.  An empty input is
returned as-is (the non-array guard cannot fire on a typed list).  `none`
models the divergence of the batching loop. -/
def enhanceWithOMDBData (tmdbItems : List TMDBItem)
    (lookup : TMDBItem → Except JsError (Option OMDBItem))
    (maxConcurrent : Nat := 5) : Option (List EnhancedItem) :=
  enhanceBatches (enhanceOne lookup) maxConcurrent tmdbItems.length tmdbItems

/-! ### Proof-side helper definitions -/

/-- Recursive characterization of the `getGenres` dedup: drop every genre
whose id was already seen, keep the first genre of each fresh id. -/
def dedupSkip (seen : List Int) : List Genre → List Genre
  | [] => []
  | g :: rest =>
    if g.id ∈ seen then dedupSkip seen rest else g :: dedupSkip (g.id :: seen) rest

/-! ### Concrete sample data used by witnesses and counterexamples -/

def keyA : String := "A"
def keyB : String := "B"
def keyC : String := "C"

/-- A cache with capacity 2 and TTL 1000 ms, as freshly constructed. -/
def natCache2 : ApiCache Nat := { cache := [], maxSize := 2, ttl := 1000 }

/-- `natCache2` after inserting keys A and B at time 0. -/
def cacheAB : ApiCache Nat := (natCache2.set keyA 1 0).set keyB 2 0

/-- A canonical list record with the given id. -/
def sampleTMDBItem (n : Int) : TMDBItem :=
  { id := n, tmdbId := n, title := "Title", mediaType := "movie", year := some 2020,
    genre := [28], plot := "short", rating := 7, tmdb := 7, poster := none,
    backdrop := none, releaseDate := "2020-01-01", popularity := 10, voteCount := 100,
    originalLanguage := "en" }

/-- An enrichment record with a long plot. -/
def sampleOMDBItem : OMDBItem :=
  { imdbId := "tt0000001", title := "Title", year := "2020", rated := "PG",
    released := "01 Jan 2020", runtime := "120 min", genre := ["Action"],
    director := "Someone", writer := "Someone Else", actors := ["Actor One"],
    plot := "a considerably longer plot description", language := "English",
    country := "USA", awards := "None",
    poster := none, ratings := { imdb := some 7, rottenTomatoes := some 90, metacritic := some 70 },
    metascore := some 70, imdbRating := some 7, imdbVotes := some "1000",
    omdbType := "movie", dvd := none, boxOffice := none, production := none,
    website := none, totalSeasons := none }

/-- Seven canonical records with ids 0..6. -/
def sevenItems : List TMDBItem :=
  [sampleTMDBItem 0, sampleTMDBItem 1, sampleTMDBItem 2, sampleTMDBItem 3,
   sampleTMDBItem 4, sampleTMDBItem 5, sampleTMDBItem 6]

/-- A lookup oracle whose request for the record with id 3 fails with a
network error while every other request finds `sampleOMDBItem`. -/
def sevenLookup (item : TMDBItem) : Except JsError (Option OMDBItem) :=
  if item.id = 3 then .error .network else .ok (some sampleOMDBItem)

/-- Two genre taxonomies sharing the id 1 under different names. -/
def movieGenresSample : List Genre := [{ id := 1, name := "Action" }, { id := 2, name := "Drama" }]

def tvGenresSample : List Genre := [{ id := 1, name := "Action and Adventure" }, { id := 3, name := "News" }]

/-! ### Association-list lemmas -/

theorem lookupKey_mapSet_self {α : Type} (k : String) (v : α) (l : List (String × α)) :
    lookupKey k (mapSet k v l) = some v := by
  induction l with
  | nil => simp [mapSet, lookupKey]
  | cons hd tl ih =>
    obtain ⟨k2, v2⟩ := hd
    by_cases h : k2 = k
    · simp [mapSet, h, lookupKey]
    · simp [mapSet, h, lookupKey, ih]

theorem length_mapSet_le {α : Type} (k : String) (v : α) (l : List (String × α)) :
    (mapSet k v l).length ≤ l.length + 1 := by
  induction l with
  | nil => simp [mapSet]
  | cons hd tl ih =>
    obtain ⟨k2, v2⟩ := hd
    by_cases h : k2 = k
    · simp [mapSet, h]
    · simp only [mapSet, if_neg h, List.length_cons]
      omega

theorem length_eraseKey_le {α : Type} (k : String) (l : List (String × α)) :
    (eraseKey k l).length ≤ l.length := by
  induction l with
  | nil => simp [eraseKey]
  | cons hd tl ih =>
    obtain ⟨k2, v2⟩ := hd
    by_cases h : k2 = k
    · simp [eraseKey, h]
    · simp only [eraseKey, if_neg h, List.length_cons]
      omega

/-! ### Cache theorems -/

/-- Claim C4: when `set` is called while the store holds exactly `maxSize`
entries (with `maxSize ≥ 1`), the earliest-inserted entry — the head of the
insertion-ordered store — is evicted and the new entry written into the rest:
insertion-order FIFO eviction.  Reads cannot disturb this order: a `get` that
returns a hit leaves the store untouched. -/
theorem cache_set_evicts_earliest {α : Type} (c : ApiCache α) (k : String) (d : α) (now : Nat)
    (h1 : 1 ≤ c.maxSize) (h2 : c.cache.length = c.maxSize) :
    (c.set k d now).cache = mapSet k { data := d, expiry := now + c.ttl } c.cache.tail ∧
    ∀ k2 now2 v, (c.get k2 now2).1 = some v → (c.get k2 now2).2 = c := by
  constructor
  · rcases hc : c.cache with _ | ⟨⟨k0, v0⟩, rest⟩
    · exfalso
      rw [hc] at h2
      simp at h2
      omega
    · rw [hc] at h2
      simp only [List.length_cons] at h2
      have hfull : c.maxSize ≤ rest.length + 1 := le_of_eq h2.symm
      simp [ApiCache.set, hc, hfull, eraseKey]
  · intro k2 now2 v hv
    rcases hl : lookupKey k2 c.cache with _ | item
    · simp [ApiCache.get, hl] at hv
    · by_cases hex : item.expiry < now2
      · simp [ApiCache.get, hl, hex] at hv
      · simp [ApiCache.get, hl, hex]

/-- Claim C5: an entry stored at time `t` with TTL `T = c.ttl ≥ 1` is still a
hit when read at elapsed time `T - 1`, is a miss when read at elapsed time
`T + 1`, and the expired entry is deleted from the store by that very read
(lazy expiry). -/
theorem cache_ttl_lazy_expiry {α : Type} (c : ApiCache α) (k : String) (d : α) (t : Nat)
    (h : 1 ≤ c.ttl) :
    ((c.set k d t).get k (t + (c.ttl - 1))).1 = some d ∧
    ((c.set k d t).get k (t + c.ttl + 1)).1 = none ∧
    ((c.set k d t).get k (t + c.ttl + 1)).2.cache = eraseKey k (c.set k d t).cache := by
  have hl : lookupKey k (c.set k d t).cache = some { data := d, expiry := t + c.ttl } := by
    simp only [ApiCache.set]
    exact lookupKey_mapSet_self k _ _
  have hfresh : ¬ (t + c.ttl < t + (c.ttl - 1)) := by omega
  have hstale : t + c.ttl < t + c.ttl + 1 := by omega
  refine ⟨?_, ?_, ?_⟩
  · simp [ApiCache.get, hl, hfresh]
  · simp [ApiCache.get, hl, hstale]
  · simp [ApiCache.get, hl, hstale]

theorem applyOp_size_le {α : Type} (c : ApiCache α) (op : CacheOp α)
    (h1 : 1 ≤ c.maxSize) (h2 : c.size ≤ c.maxSize) :
    (applyOp c op).size ≤ c.maxSize ∧ (applyOp c op).maxSize = c.maxSize := by
  cases op with
  | clear => simp [applyOp, ApiCache.clear, ApiCache.size]
  | get k now =>
    rcases hl : lookupKey k c.cache with _ | item
    · simp [applyOp, ApiCache.get, hl, h2]
    · by_cases hex : item.expiry < now
      · refine ⟨?_, by simp [applyOp, ApiCache.get, hl, hex]⟩
        simp only [applyOp, ApiCache.get, hl, hex, if_pos, ApiCache.size]
        calc (eraseKey k c.cache).length ≤ c.cache.length := length_eraseKey_le k c.cache
          _ ≤ c.maxSize := h2
      · simp [applyOp, ApiCache.get, hl, hex, h2]
  | set k d now =>
    refine ⟨?_, by simp [applyOp, ApiCache.set]⟩
    simp only [applyOp, ApiCache.set, ApiCache.size]
    by_cases hfull : c.maxSize ≤ c.cache.length
    · rcases hc : c.cache with _ | ⟨⟨k0, v0⟩, rest⟩
      · exfalso
        rw [hc] at hfull
        simp at hfull
        omega
      · have hms := length_mapSet_le k { data := d, expiry := now + c.ttl } rest
        have h2a : rest.length + 1 ≤ c.maxSize := by
          simp only [ApiCache.size, hc, List.length_cons] at h2
          exact h2
        have hfull2 : c.maxSize ≤ rest.length + 1 := by
          rw [hc] at hfull
          simpa using hfull
        simp [hfull2, eraseKey]
        omega
    · rw [if_neg hfull]
      have := length_mapSet_le k { data := d, expiry := now + c.ttl } c.cache
      simp only [ApiCache.size] at h2
      omega

theorem applyOps_size_le {α : Type} (ops : List (CacheOp α)) :
    ∀ c : ApiCache α, 1 ≤ c.maxSize → c.size ≤ c.maxSize →
      (applyOps c ops).size ≤ c.maxSize ∧ (applyOps c ops).maxSize = c.maxSize := by
  induction ops with
  | nil => exact fun c _ h2 => ⟨h2, rfl⟩
  | cons op rest ih =>
    intro c h1 h2
    have hstep := applyOp_size_le c op h1 h2
    have hrec := ih (applyOp c op) (hstep.2 ▸ h1) (hstep.2 ▸ hstep.1)
    simp only [applyOps, List.foldl_cons] at hrec ⊢
    exact ⟨hstep.2 ▸ hrec.1, hstep.2 ▸ hrec.2⟩

/-- Claim C10: starting from a freshly constructed cache with capacity
`maxSize ≥ 1`, no finite sequence of `get`/`set`/`clear` operations can make
`size()` exceed `maxSize`. -/
theorem cache_capacity_invariant (α : Type) (maxSize ttl : Nat) (ops : List (CacheOp α))
    (h : 1 ≤ maxSize) :
    (applyOps (ApiCache.mkCache α maxSize ttl) ops).size ≤ maxSize := by
  have hinv := applyOps_size_le ops (ApiCache.mkCache α maxSize ttl)
    (by simpa [ApiCache.mkCache] using h) (by simp [ApiCache.mkCache, ApiCache.size])
  simpa [ApiCache.mkCache] using hinv.1

/-- Witness for C4: with capacity 2 and keys A, B inserted in that order,
setting C evicts A; B and C remain retrievable and A is gone. -/
theorem cache_set_evicts_earliest_witness :
    (cacheAB.set keyC 3 0).cache
        = mapSet keyC { data := 3, expiry := 0 + cacheAB.ttl } cacheAB.cache.tail ∧
    ((cacheAB.set keyC 3 0).get keyB 1).1 = some 2 ∧
    ((cacheAB.set keyC 3 0).get keyC 1).1 = some 3 ∧
    ((cacheAB.set keyC 3 0).get keyA 1).1 = none := by
  refine ⟨(cache_set_evicts_earliest cacheAB keyC 3 0 (by decide) (by decide)).1, ?_, ?_, ?_⟩
  · decide
  · decide
  · decide

/-- Witness for C5: a value stored at time 500 in a cache with TTL 1000 is a
hit at time 1499, a miss at time 1501, and the miss removes the entry. -/
theorem cache_ttl_lazy_expiry_witness :
    ((natCache2.set keyA 7 500).get keyA (500 + (natCache2.ttl - 1))).1 = some 7 ∧
    ((natCache2.set keyA 7 500).get keyA (500 + natCache2.ttl + 1)).1 = none ∧
    ((natCache2.set keyA 7 500).get keyA (500 + natCache2.ttl + 1)).2.cache
        = eraseKey keyA (natCache2.set keyA 7 500).cache :=
  cache_ttl_lazy_expiry natCache2 keyA 7 500 (by decide)

/-- Witness for C10: a concrete operation sequence (including overwrites, an
expired read and a clear) never pushes the size of a capacity-2 cache above
2. -/
theorem cache_capacity_invariant_witness :
    (applyOps (ApiCache.mkCache Nat 2 1000)
      [CacheOp.set keyA 1 0, CacheOp.set keyB 2 0, CacheOp.set keyC 3 0,
       CacheOp.get keyB 2000, CacheOp.clear, CacheOp.set keyA 4 5]).size ≤ 2 :=
  cache_capacity_invariant Nat 2 1000 _ (by decide)

/-! ### Retry theorems -/

theorem delays_shift (d i k : Nat) :
    (List.range (k + 1)).map (fun j => d * (i + j + 1))
      = d * (i + 1) :: (List.range k).map (fun j => d * (i + 1 + j + 1)) := by
  rw [List.range_succ_eq_map, List.map_cons, List.map_map]
  refine congrArg₂ _ (by ring) ?_
  refine List.map_congr_left fun j _ => ?_
  simp only [Function.comp_apply, Nat.succ_eq_add_one]
  ring

/-- On a call that fails at every attempt with the same error, the retry loop
with `remaining ≥ 1` iterations left issues exactly `remaining` attempts,
waits `delay * (i + 1)` after the failed attempt at index `i` (linear
backoff), and finally re-raises the error of the underlying call. -/
theorem retryLoop_const_error {α : Type} (e : JsError) (d : Nat) :
    ∀ r i, 1 ≤ r →
      retryLoop (α := α) (fun _ => .error e) d i r
        = (some (.error e), r, (List.range (r - 1)).map (fun j => d * (i + j + 1))) := by
  intro r
  induction r with
  | zero => intro i h; omega
  | succ n ih =>
    intro i _
    cases n with
    | zero => simp [retryLoop]
    | succ m =>
      have hrec := ih (i + 1) (by omega)
      have hstep : retryLoop (α := α) (fun _ => .error e) d i (m + 1 + 1)
          = ((retryLoop (fun _ => Except.error e) d (i + 1) (m + 1)).1,
             (retryLoop (fun _ => Except.error e) d (i + 1) (m + 1)).2.1 + 1,
             d * (i + 1) :: (retryLoop (fun _ => Except.error e) d (i + 1) (m + 1)).2.2) := rfl
      rw [hstep, hrec]
      simp only [Nat.add_sub_cancel, Prod.mk.injEq]
      exact ⟨trivial, trivial, (delays_shift d i m).symm⟩

theorem retryApiCall_const_error {α : Type} (e : JsError) (m d : Nat) (hm : 1 ≤ m) :
    retryApiCall (α := α) (fun _ => .error e) m d
      = (some (.error e), m, (List.range (m - 1)).map (fun j => d * (j + 1))) := by
  unfold retryApiCall
  rw [retryLoop_const_error e d m 0 hm]
  simp

/-- Counterexample to C6: an operation that keeps failing with an
authentication error is retried by `retryApiCall` — with the default
`maxRetries = 3` it is attempted 3 times, not surfaced after the single
initial attempt. -/
theorem retry_auth_retried_counterexample :
    (retryApiCall (α := Nat) (fun _ => Except.error JsError.auth) 3 1000).2.1 = 3 ∧
    (3 : Nat) ≠ 1 := by
  constructor
  · rw [retryApiCall_const_error JsError.auth 3 1000 (by omega)]
  · omega

/-- Claim C6 (amended): `retryApiCall` does not special-case authentication
failures — a call that keeps failing with an authentication error is
re-attempted with linear backoff up to the `maxRetries` ceiling, and only
then is the authentication error surfaced to the caller. -/
theorem retry_auth_like_any_error (α : Type) (m d : Nat) (hm : 1 ≤ m) :
    retryApiCall (α := α) (fun _ => .error JsError.auth) m d
      = (some (.error JsError.auth), m, (List.range (m - 1)).map (fun j => d * (j + 1))) :=
  retryApiCall_const_error JsError.auth m d hm

/-- Witness for the amended C6 at the default configuration. -/
theorem retry_auth_like_any_error_witness :
    retryApiCall (α := Nat) (fun _ => .error JsError.auth) 3 1000
      = (some (.error JsError.auth), 3, (List.range 2).map (fun j => 1000 * (j + 1))) :=
  retry_auth_like_any_error Nat 3 1000 (by omega)

/-- Claim C7: a call that keeps failing with a retryable error (rate limit or
transient network failure) is re-attempted with a delay of `delay * (i + 1)`
after the failed attempt at 0-based index `i` — linear backoff — up to the
fixed ceiling of `maxRetries` attempts, after which the error of the
underlying call is re-raised to the caller. -/
theorem retry_linear_backoff (α : Type) (e : JsError)
    (_he : e = JsError.rateLimit ∨ e = JsError.network) (m d : Nat) (hm : 1 ≤ m) :
    retryApiCall (α := α) (fun _ => .error e) m d
      = (some (.error e), m, (List.range (m - 1)).map (fun j => d * (j + 1))) :=
  retryApiCall_const_error e m d hm

/-- Witness for C7: a permanently rate-limited call under the default
configuration is attempted 3 times with waits of 1000 ms and 2000 ms, and the
rate-limit error is re-raised. -/
theorem retry_linear_backoff_witness :
    retryApiCall (α := Nat) (fun _ => .error JsError.rateLimit) 3 1000
      = (some (.error JsError.rateLimit), 3, (List.range 2).map (fun j => 1000 * (j + 1))) :=
  retry_linear_backoff Nat JsError.rateLimit (Or.inl rfl) 3 1000 (by omega)

/-! ### Pagination theorems -/

theorem intRange_length (a b : Int) : (intRange a b).length = (b + 1 - a).toNat := by
  rw [intRange, List.length_map, List.length_range]

theorem mem_intRange {a b x : Int} : x ∈ intRange a b ↔ a ≤ x ∧ x ≤ b := by
  constructor
  · intro hx
    simp only [intRange] at hx
    obtain ⟨k, hk, he⟩ := List.mem_map.mp hx
    rw [List.mem_range] at hk
    subst he
    simp only [Int.ofNat_eq_natCast]
    omega
  · intro hab
    simp only [intRange]
    refine List.mem_map.mpr ⟨(x - a).toNat, List.mem_range.mpr ?_, ?_⟩
    · omega
    · simp only [Int.ofNat_eq_natCast]
      omega

/-- Claim C8: for `1 ≤ current ≤ total` and `maxVisible ≥ 1`,
`generatePageNumbers` returns the consecutive ascending run of page numbers
starting at some `s ≥ 1`, of length `min maxVisible total`, ending no later
than `total`, and containing the current page; the three boundary examples of
the specification hold. -/
theorem generatePageNumbers_window (c t m : Int) (h1 : 1 ≤ c) (h2 : c ≤ t) (h3 : 1 ≤ m) :
    (∃ s : Int, generatePageNumbers c t m = intRange s (s + min m t - 1) ∧
        1 ≤ s ∧ s + min m t - 1 ≤ t ∧
        (generatePageNumbers c t m).length = (min m t).toNat ∧
        c ∈ generatePageNumbers c t m) ∧
    generatePageNumbers 50 100 5 = [48, 49, 50, 51, 52] ∧
    generatePageNumbers 1 100 5 = [1, 2, 3, 4, 5] ∧
    generatePageNumbers 3 3 5 = [1, 2, 3] := by
  refine ⟨?_, by decide, by decide, by decide⟩
  obtain ⟨half, hhalf⟩ : ∃ h, Int.fdiv m 2 = h := ⟨_, rfl⟩
  have hh2 : half = m / 2 := by
    rw [← hhalf, Int.fdiv_eq_ediv _ (by norm_num)]
  obtain ⟨s0, hs0⟩ : ∃ s0, max 1 (c - half) = s0 := ⟨_, rfl⟩
  obtain ⟨e0, he0⟩ : ∃ e0, min t (s0 + m - 1) = e0 := ⟨_, rfl⟩
  have hgen : generatePageNumbers c t m
      = intRange (if e0 - s0 + 1 < m then max 1 (e0 - m + 1) else s0) e0 := by
    simp only [generatePageNumbers, hhalf, hs0, he0]
  by_cases hcond : e0 - s0 + 1 < m
  · refine ⟨max 1 (e0 - m + 1), ?_, by omega, by omega, ?_, ?_⟩
    · rw [hgen, if_pos hcond]
      refine congrArg (intRange _) ?_
      omega
    · rw [hgen, if_pos hcond, intRange_length]
      have harith : e0 + 1 - max 1 (e0 - m + 1) = min m t := by omega
      rw [harith]
    · rw [hgen, if_pos hcond, mem_intRange]
      omega
  · refine ⟨s0, ?_, by omega, by omega, ?_, ?_⟩
    · rw [hgen, if_neg hcond]
      refine congrArg (intRange _) ?_
      omega
    · rw [hgen, if_neg hcond, intRange_length]
      have harith : e0 + 1 - s0 = min m t := by omega
      rw [harith]
    · rw [hgen, if_neg hcond, mem_intRange]
      omega

/-- Witness for C8 at `current = 50`, `total = 100`, `maxVisible = 5`. -/
theorem generatePageNumbers_window_witness :
    (∃ s : Int, generatePageNumbers 50 100 5 = intRange s (s + min 5 100 - 1) ∧
        1 ≤ s ∧ s + min 5 100 - 1 ≤ 100 ∧
        (generatePageNumbers 50 100 5).length = (min (5 : Int) 100).toNat ∧
        (50 : Int) ∈ generatePageNumbers 50 100 5) ∧
    generatePageNumbers 50 100 5 = [48, 49, 50, 51, 52] ∧
    generatePageNumbers 1 100 5 = [1, 2, 3, 4, 5] ∧
    generatePageNumbers 3 3 5 = [1, 2, 3] :=
  generatePageNumbers_window 50 100 5 (by norm_num) (by norm_num) (by norm_num)

/-! ### Batched enrichment engine theorems -/

theorem enhanceOne_id (lookup : TMDBItem → Except JsError (Option OMDBItem))
    (item : TMDBItem) : (enhanceOne lookup item).id = item.id := by
  unfold enhanceOne
  cases lookup item with
  | error e => rfl
  | ok o =>
    cases o with
    | none => rfl
    | some d => rfl

theorem enhanceBatches_eq_map (step : TMDBItem → EnhancedItem) (mc : Nat) (hmc : 1 ≤ mc) :
    ∀ fuel items, items.length ≤ fuel →
      enhanceBatches step mc fuel items = some (items.map step) := by
  intro fuel
  induction fuel with
  | zero =>
    intro items hlen
    have hnil : items = [] := List.eq_nil_of_length_eq_zero (by omega)
    subst hnil
    rfl
  | succ f ih =>
    intro items hlen
    cases items with
    | nil => rfl
    | cons item rest =>
      have hdrop : ((item :: rest).drop mc).length ≤ f := by
        rw [List.length_drop]
        simp only [List.length_cons] at hlen ⊢
        omega
      simp only [enhanceBatches, ih _ hdrop]
      rw [← List.map_append, List.take_append_drop]

/-- Claim C1 (amended: the concurrency bound must be positive): for every
record list, every lookup oracle and every concurrency bound `≥ 1`, the
enrichment engine terminates with a list of the same length as its input
whose i-th element keeps the id of the i-th input record; the per-item
results are assembled by input position (`Promise.all` order), so the
completion order inside a batch cannot affect them. -/
theorem enhance_preserves_length_and_ids (items : List TMDBItem)
    (lookup : TMDBItem → Except JsError (Option OMDBItem)) (mc : Nat) (hmc : 1 ≤ mc) :
    ∃ out, enhanceWithOMDBData items lookup mc = some out ∧
      out.length = items.length ∧
      ∀ i, (hi : i < out.length) → (hj : i < items.length) →
        (out.get ⟨i, hi⟩).id = (items.get ⟨i, hj⟩).id := by
  refine ⟨items.map (enhanceOne lookup),
    enhanceBatches_eq_map (enhanceOne lookup) mc hmc items.length items le_rfl, by simp, ?_⟩
  intro i hi hj
  simp only [List.get_eq_getElem, List.getElem_map]
  exact enhanceOne_id lookup _

/-- Counterexample to C1 as stated: with concurrency bound 0 the batching
loop `for (i = 0; i < len; i += 0)` never advances, so the engine never
returns a list at all (rendered as `none` by the fuel model of the loop). -/
theorem enhance_concurrency_zero_counterexample :
    enhanceWithOMDBData [sampleTMDBItem 1] (fun _ => Except.ok none) 0 = none := rfl

/-- Witness for the amended C1: seven records enriched with bound 5. -/
theorem enhance_preserves_length_and_ids_witness :
    ∃ out, enhanceWithOMDBData sevenItems (fun _ => Except.ok (some sampleOMDBItem)) 5
        = some out ∧
      out.length = sevenItems.length ∧
      ∀ i, (hi : i < out.length) → (hj : i < sevenItems.length) →
        (out.get ⟨i, hi⟩).id = (sevenItems.get ⟨i, hj⟩).id :=
  enhance_preserves_length_and_ids sevenItems (fun _ => Except.ok (some sampleOMDBItem)) 5
    (by omega)

/-- Claim C2: for every record list and lookup oracle (and concurrency bound
`≥ 1`, as in the source default of 5), the engine returns one output record
per input record, and every position whose lookup rejected or resolved to the
not-found sentinel carries the unmodified primary record; the engine itself
never fails — it is a total function into `some` list. -/
theorem enhance_failure_isolation (items : List TMDBItem)
    (lookup : TMDBItem → Except JsError (Option OMDBItem)) (mc : Nat) (hmc : 1 ≤ mc) :
    ∃ out, enhanceWithOMDBData items lookup mc = some out ∧
      out.length = items.length ∧
      ∀ i, (hi : i < out.length) → (hj : i < items.length) →
        (∀ o : OMDBItem, lookup (items.get ⟨i, hj⟩) ≠ Except.ok (some o)) →
        out.get ⟨i, hi⟩ = EnhancedItem.plain (items.get ⟨i, hj⟩) := by
  refine ⟨items.map (enhanceOne lookup),
    enhanceBatches_eq_map (enhanceOne lookup) mc hmc items.length items le_rfl, by simp, ?_⟩
  intro i hi hj hfail
  simp only [List.get_eq_getElem, List.getElem_map]
  unfold enhanceOne
  cases hl : lookup items[i] with
  | error e => rfl
  | ok o =>
    cases o with
    | none => rfl
    | some d => exact absurd hl (hfail d)

/-- Witness for C2: the scenario from the specification — a batch of 7 records whose
index-3 lookup fails while the others succeed. -/
theorem enhance_failure_isolation_witness :
    ∃ out, enhanceWithOMDBData sevenItems sevenLookup 5 = some out ∧
      out.length = sevenItems.length ∧
      ∀ i, (hi : i < out.length) → (hj : i < sevenItems.length) →
        (∀ o : OMDBItem, sevenLookup (sevenItems.get ⟨i, hj⟩) ≠ Except.ok (some o)) →
        out.get ⟨i, hi⟩ = EnhancedItem.plain (sevenItems.get ⟨i, hj⟩) :=
  enhance_failure_isolation sevenItems sevenLookup 5 (by omega)

/-! ### Merge engine theorems -/

/-- Claim C3: in both merge functions, the merged plot is the enrichment plot
exactly when it is strictly longer than the primary plot, and the primary
plot otherwise — in particular, on ties the primary plot is kept. -/
theorem merge_plot_strictly_longer (p : TMDBItem) (pd : TMDBDetails) (e : OMDBItem) :
    (mergeBasicData p e).plot
        = (if p.plot.length < e.plot.length then e.plot else p.plot) ∧
    (mergeDetailedData pd e).plot
        = (if pd.plot.length < e.plot.length then e.plot else pd.plot) := by
  constructor
  · by_cases he : e.plot = ""
    · have h0 : e.plot.length = 0 := by rw [he]; rfl
      simp [mergeBasicData, he, h0]
    · simp [mergeBasicData, he]
  · by_cases he : e.plot = ""
    · have h0 : e.plot.length = 0 := by rw [he]; rfl
      simp [mergeDetailedData, he, h0]
    · simp [mergeDetailedData, he]

/-! ### Genre registry theorems -/

theorem dedupSkip_congr (l : List Genre) :
    ∀ s1 s2 : List Int, (∀ x, x ∈ s1 ↔ x ∈ s2) → dedupSkip s1 l = dedupSkip s2 l := by
  induction l with
  | nil => intro s1 s2 _; rfl
  | cons g rest ih =>
    intro s1 s2 hmem
    by_cases hg : g.id ∈ s1
    · have hg2 : g.id ∈ s2 := (hmem g.id).mp hg
      simp [dedupSkip, hg, hg2, ih s1 s2 hmem]
    · have hg2 : g.id ∉ s2 := fun h => hg ((hmem g.id).mpr h)
      simp only [dedupSkip, hg, hg2, if_neg, ite_false]
      rw [ih (g.id :: s1) (g.id :: s2) ?_]
      intro x
      simp only [List.mem_cons, hmem x]

theorem foldl_dedupStep (l : List Genre) :
    ∀ acc : List Genre, l.foldl dedupStep acc = acc ++ dedupSkip (acc.map Genre.id) l := by
  induction l with
  | nil => intro acc; simp [dedupSkip]
  | cons g rest ih =>
    intro acc
    rw [List.foldl_cons]
    by_cases hg : g.id ∈ acc.map Genre.id
    · have hany : acc.any (fun g2 => g2.id = g.id) = true := by
        rw [List.any_eq_true]
        obtain ⟨g2, hg2, hid⟩ := List.mem_map.mp hg
        exact ⟨g2, hg2, by simp [hid]⟩
      rw [show dedupStep acc g = acc from by simp [dedupStep, hany]]
      rw [ih acc]
      rw [show dedupSkip (acc.map Genre.id) (g :: rest)
            = dedupSkip (acc.map Genre.id) rest from by simp [dedupSkip, hg]]
    · have hany : acc.any (fun g2 => g2.id = g.id) = false := by
        rw [List.any_eq_false]
        intro g2 hg2
        simp only [decide_eq_true_eq]
        exact fun hid => hg (List.mem_map.mpr ⟨g2, hg2, hid⟩)
      rw [show dedupStep acc g = acc ++ [g] from by simp [dedupStep, hany]]
      rw [ih (acc ++ [g])]
      rw [show dedupSkip (acc.map Genre.id) (g :: rest)
            = g :: dedupSkip (g.id :: acc.map Genre.id) rest from by simp [dedupSkip, hg]]
      rw [List.append_assoc, List.singleton_append, List.map_append, List.map_cons,
        List.map_nil]
      refine congrArg _ (congrArg _ ?_)
      refine dedupSkip_congr rest _ _ fun x => ?_
      simp only [List.mem_append, List.mem_cons, List.mem_singleton, List.not_mem_nil,
        or_false]
      tauto

theorem dedupById_eq_dedupSkip (l : List Genre) : dedupById l = dedupSkip [] l := by
  rw [dedupById, foldl_dedupStep l []]
  simp

theorem dedupSkip_cover (l : List Genre) :
    ∀ seen : List Int, ∀ g ∈ l, g.id ∈ seen ∨ ∃ g2 ∈ dedupSkip seen l, g2.id = g.id := by
  induction l with
  | nil => intro seen g hg; simp at hg
  | cons a rest ih =>
    intro seen g hg
    by_cases ha : a.id ∈ seen
    · rcases List.mem_cons.mp hg with rfl | hg2
      · left; exact ha
      · rcases ih seen g hg2 with h | ⟨g2, hg2m, hid⟩
        · left; exact h
        · right; exact ⟨g2, by simp [dedupSkip, ha, hg2m], hid⟩
    · rcases List.mem_cons.mp hg with rfl | hg2
      · right; exact ⟨g, by simp [dedupSkip, ha], rfl⟩
      · rcases ih (a.id :: seen) g hg2 with h | ⟨g2, hg2m, hid⟩
        · rcases List.mem_cons.mp h with heq | hseen
          · right; exact ⟨a, by simp [dedupSkip, ha], heq.symm⟩
          · left; exact hseen
        · right; exact ⟨g2, by simp [dedupSkip, ha, hg2m], hid⟩

theorem dedupSkip_nodup (l : List Genre) :
    ∀ seen : List Int, ((dedupSkip seen l).map Genre.id).Nodup ∧
      ∀ g2 ∈ dedupSkip seen l, g2.id ∉ seen := by
  induction l with
  | nil =>
    intro seen
    constructor
    · simp [dedupSkip]
    · intro g2 h; simp [dedupSkip] at h
  | cons a rest ih =>
    intro seen
    by_cases ha : a.id ∈ seen
    · obtain ⟨h1, h2⟩ := ih seen
      constructor
      · simpa [dedupSkip, ha] using h1
      · intro g2 hg2
        exact h2 g2 (by simpa [dedupSkip, ha] using hg2)
    · obtain ⟨h1, h2⟩ := ih (a.id :: seen)
      constructor
      · rw [show dedupSkip seen (a :: rest) = a :: dedupSkip (a.id :: seen) rest from by
          simp [dedupSkip, ha]]
        rw [List.map_cons, List.nodup_cons]
        refine ⟨?_, h1⟩
        intro hmem
        obtain ⟨g2, hg2, hid⟩ := List.mem_map.mp hmem
        exact h2 g2 hg2 (List.mem_cons.mpr (Or.inl hid))
      · intro g2 hg2
        rcases List.mem_cons.mp (by simpa [dedupSkip, ha] using hg2) with rfl | hg2m
        · exact ha
        · exact fun hs => h2 g2 hg2m (List.mem_cons.mpr (Or.inr hs))

theorem dedupSkip_first (l : List Genre) :
    ∀ seen : List Int, ∀ g2 ∈ dedupSkip seen l,
      g2.id ∉ seen ∧ l.find? (fun g => g.id == g2.id) = some g2 := by
  induction l with
  | nil => intro seen g2 h; simp [dedupSkip] at h
  | cons a rest ih =>
    intro seen g2 hg2
    by_cases ha : a.id ∈ seen
    · have hmem : g2 ∈ dedupSkip seen rest := by simpa [dedupSkip, ha] using hg2
      obtain ⟨hnot, hfind⟩ := ih seen g2 hmem
      have hne : (a.id == g2.id) = false := by
        rw [beq_eq_false_iff_ne]
        exact fun h => hnot (h ▸ ha)
      exact ⟨hnot, by simp [List.find?, hne, hfind]⟩
    · rcases List.mem_cons.mp (by simpa [dedupSkip, ha] using hg2) with rfl | hg2m
      · exact ⟨ha, by simp [List.find?]⟩
      · obtain ⟨hnot, hfind⟩ := ih (a.id :: seen) g2 hg2m
        have hne : (a.id == g2.id) = false := by
          rw [beq_eq_false_iff_ne]
          exact fun h => hnot (List.mem_cons.mpr (Or.inl (h ▸ rfl)))
        exact ⟨fun hs => hnot (List.mem_cons.mpr (Or.inr hs)),
          by simp [List.find?, hne, hfind]⟩

theorem dedupSkip_toFinset (l : List Genre) :
    ∀ seen : List Int, ((dedupSkip seen l).map Genre.id).toFinset
      = (l.map Genre.id).toFinset \ seen.toFinset := by
  induction l with
  | nil => intro seen; simp [dedupSkip]
  | cons a rest ih =>
    intro seen
    by_cases ha : a.id ∈ seen
    · rw [show dedupSkip seen (a :: rest) = dedupSkip seen rest from by simp [dedupSkip, ha],
        ih seen]
      ext x
      simp only [Finset.mem_sdiff, List.mem_toFinset, List.map_cons, List.mem_cons]
      constructor
      · rintro ⟨h1, h2⟩
        exact ⟨Or.inr h1, h2⟩
      · rintro ⟨h1 | h1, h2⟩
        · exfalso; exact h2 (by rw [h1]; exact ha)
        · exact ⟨h1, h2⟩
    · rw [show dedupSkip seen (a :: rest) = a :: dedupSkip (a.id :: seen) rest from by
        simp [dedupSkip, ha]]
      rw [List.map_cons, List.toFinset_cons, ih (a.id :: seen)]
      ext x
      simp only [Finset.mem_insert, Finset.mem_sdiff, List.mem_toFinset, List.map_cons,
        List.mem_cons]
      constructor
      · rintro (rfl | ⟨h1, h2⟩)
        · exact ⟨Or.inl rfl, ha⟩
        · exact ⟨Or.inr h1, fun hs => h2 (Or.inr hs)⟩
      · rintro ⟨h1 | h1, h2⟩
        · left; exact h1
        · by_cases hx : x = a.id
          · left; exact hx
          · right; exact ⟨h1, fun hs => h2 (hs.resolve_left hx)⟩

/-- Claim C9: building the genre registry from the movie-genre list followed
by the series-genre list yields exactly one entry per distinct id, each entry
being the first occurrence of its id in concatenation order (hence carrying
the first-seen name), with total length the number of distinct ids; the
result is cached in the service state, and every later call returns that
cached list unchanged without refetching the taxonomies. -/
theorem getGenres_dedup_and_cache (movieGenres tvGenres : List Genre) :
    (∀ g ∈ movieGenres ++ tvGenres,
        ∃ g2 ∈ (getGenres movieGenres tvGenres { genreCache := none }).1, g2.id = g.id) ∧
    (((getGenres movieGenres tvGenres { genreCache := none }).1.map Genre.id).Nodup) ∧
    (∀ g2 ∈ (getGenres movieGenres tvGenres { genreCache := none }).1,
        (movieGenres ++ tvGenres).find? (fun g => g.id == g2.id) = some g2) ∧
    ((getGenres movieGenres tvGenres { genreCache := none }).1.length
        = ((movieGenres ++ tvGenres).map Genre.id).toFinset.card) ∧
    (∀ mg2 tv2, getGenres mg2 tv2 (getGenres movieGenres tvGenres { genreCache := none }).2.1
        = ((getGenres movieGenres tvGenres { genreCache := none }).1,
           (getGenres movieGenres tvGenres { genreCache := none }).2.1, false)) := by
  have hres : (getGenres movieGenres tvGenres { genreCache := none }).1
      = dedupSkip [] (movieGenres ++ tvGenres) := by
    simp [getGenres, dedupById_eq_dedupSkip]
  refine ⟨?_, ?_, ?_, ?_, ?_⟩
  · intro g hg
    rcases dedupSkip_cover (movieGenres ++ tvGenres) [] g hg with h | ⟨g2, hm, hid⟩
    · simp at h
    · exact ⟨g2, by rw [hres]; exact hm, hid⟩
  · rw [hres]
    exact (dedupSkip_nodup _ []).1
  · intro g2 hg2
    rw [hres] at hg2
    exact (dedupSkip_first _ [] g2 hg2).2
  · rw [hres]
    have hnd := (dedupSkip_nodup (movieGenres ++ tvGenres) []).1
    have hfin := dedupSkip_toFinset (movieGenres ++ tvGenres) []
    calc (dedupSkip [] (movieGenres ++ tvGenres)).length
        = ((dedupSkip [] (movieGenres ++ tvGenres)).map Genre.id).length :=
          (List.length_map _ _).symm
      _ = ((dedupSkip [] (movieGenres ++ tvGenres)).map Genre.id).toFinset.card :=
          (List.toFinset_card_of_nodup hnd).symm
      _ = ((movieGenres ++ tvGenres).map Genre.id).toFinset.card := by
          rw [hfin]; simp
  · intro mg2 tv2
    simp [getGenres]

/-- Witness for C9 on two concrete taxonomies sharing id 1. -/
theorem getGenres_dedup_and_cache_witness :
    (∀ g ∈ movieGenresSample ++ tvGenresSample,
        ∃ g2 ∈ (getGenres movieGenresSample tvGenresSample { genreCache := none }).1,
          g2.id = g.id) ∧
    (((getGenres movieGenresSample tvGenresSample { genreCache := none }).1.map
        Genre.id).Nodup) ∧
    (∀ g2 ∈ (getGenres movieGenresSample tvGenresSample { genreCache := none }).1,
        (movieGenresSample ++ tvGenresSample).find? (fun g => g.id == g2.id) = some g2) ∧
    ((getGenres movieGenresSample tvGenresSample { genreCache := none }).1.length
        = ((movieGenresSample ++ tvGenresSample).map Genre.id).toFinset.card) ∧
    (∀ mg2 tv2, getGenres mg2 tv2
          (getGenres movieGenresSample tvGenresSample { genreCache := none }).2.1
        = ((getGenres movieGenresSample tvGenresSample { genreCache := none }).1,
           (getGenres movieGenresSample tvGenresSample { genreCache := none }).2.1, false)) :=
  getGenres_dedup_and_cache movieGenresSample tvGenresSample

end MovieWorld
